import Mathlib

/-!
Shallow embedding of `gflow.py` (a personal set of GitHub workflow scripts): a command
dispatcher orchestrating git subprocess calls.

Modelling choices:
* Each external `git` invocation (both the capturing `_git_cap` and the
  streaming `_git_run`) is recorded as a trace event `Ev.git args`, where
  `args` is the argument vector after the leading `"git"` token.
  Explicit `print(...)` calls of the workflow logic (warnings, the usage
  line, the PR URL) are recorded as `Ev.echo line`.  The purely cosmetic
  command-echo inside `_git_run` and the stderr passthrough of `_git_cap`
  are not modelled.
* The external repository is an oracle `Env`: for every argument vector it
  says whether git exits zero (`gitOk`), what stdout it produces on a
  capturing call (`gitOut`), and the nonzero exit code on failure
  (`gitCode`).
* Python exceptions are modelled with `Except GErr`:
  `CalledProcessError` becomes `GErr.calledProcess args code`,
  `FlowError(message, status)` becomes `GErr.flow message status`, and the
  unhandled `AttributeError` from a failed origin-URL regex match becomes
  `GErr.parseCrash`.
* `argparse` is out of scope: handlers take already-parsed option values.
  The Python falsy-`or` defaulting (`pargs.source or self._current_branch()`)
  is modelled faithfully: an absent argument and an explicit empty string
  both fall back to the default.
-/

namespace GFlows

/-- A trace event: a git subprocess invocation (argument vector after the
leading "git"), or a line printed by the workflow logic. -/
inductive Ev where
  | git (args : List String)
  | echo (line : String)
deriving DecidableEq, Repr

/-- Errors propagating out of an operation: a git subprocess failure
(`subprocess.CalledProcessError`), a workflow precondition failure
(`FlowError`, optional message, exit status), or the unhandled crash from an
unparsable origin URL. -/
inductive GErr where
  | calledProcess (args : List String) (code : Nat)
  | flow (message : Option String) (status : Nat)
  | parseCrash
deriving DecidableEq, Repr

/-- The external repository/remote, as an oracle over git argument vectors. -/
structure Env where
  gitOk : List String → Bool
  gitOut : List String → String
  gitCode : List String → Nat

/-- Operation monad: reads the environment, accumulates the trace of events,
and short-circuits on a raised error (Python exception propagation). -/
abbrev M (α : Type) : Type := Env → List Ev → List Ev × Except GErr α

def mPure (a : α) : M α := fun _ tr => (tr, Except.ok a)

def mBind (x : M α) (f : α → M β) : M β := fun env tr =>
  match x env tr with
  | (tr2, Except.ok a) => f a env tr2
  | (tr2, Except.error e) => (tr2, Except.error e)

instance monadM : Monad M where
  pure := mPure
  bind := mBind

/-- Model of `GFlow._git_run` and of the effect on control flow: record the
invocation; raise `CalledProcessError` when git exits nonzero. -/
def gitRun (args : List String) : M Unit := fun env tr =>
  (tr ++ [Ev.git args],
   if env.gitOk args then Except.ok ()
   else Except.error (GErr.calledProcess args (env.gitCode args)))

/-- Model of `GFlow._git_cap`: as `gitRun` but returns the captured stdout. -/
def gitCap (args : List String) : M String := fun env tr =>
  (tr ++ [Ev.git args],
   if env.gitOk args then Except.ok (env.gitOut args)
   else Except.error (GErr.calledProcess args (env.gitCode args)))

/-- A `print(...)` in the workflow logic. -/
def echoLn (line : String) : M Unit := fun _ tr =>
  (tr ++ [Ev.echo line], Except.ok ())

/-- Model of `raise FlowError(message)` (default status 1). -/
def raiseFlow (message : Option String) : M α := fun _ tr =>
  (tr, Except.error (GErr.flow message 1))

/-- Model of `try: x except CalledProcessError: h` — catches only git subprocess
failures; `FlowError` and crashes propagate. -/
def catchCPE (x : M α) (h : M α) : M α := fun env tr =>
  match x env tr with
  | (tr2, Except.ok a) => (tr2, Except.ok a)
  | (tr2, Except.error (GErr.calledProcess _ _)) => h env tr2
  | (tr2, Except.error e) => (tr2, Except.error e)

/-- The unhandled `AttributeError` raised when `_ORIGIN_PATTERN.match(origin)`
returns `None` and `.group(1, 2)` is called on it. -/
def crashParse : M α := fun _ tr => (tr, Except.error GErr.parseCrash)

/-- Model of Python `str.strip()`: drop leading and trailing whitespace. -/
def pyStrip (s : String) : String :=
  String.mk (((s.toList.dropWhile Char.isWhitespace).reverse.dropWhile Char.isWhitespace).reverse)

/-- Model of `GFlow._current_branch`: capture `rev-parse --abbrev-ref HEAD`, stripped. -/
def currentBranch : M String := do
  let out ← gitCap ["rev-parse", "--abbrev-ref", "HEAD"]
  mPure (pyStrip out)

/-- Model of Python `pargs.x or self._current_branch()`: an absent argument and an
explicit empty string (both falsy) fall back to the current branch. -/
def argOrCurrent (s : Option String) : M String :=
  match s with
  | some v => if v = "" then currentBranch else mPure v
  | none => currentBranch

/-- Model of Python `pargs.on or "main"`. -/
def orMain (s : Option String) : String :=
  match s with
  | some v => if v = "" then "main" else v
  | none => "main"

/-- Model of `GFlow._no_changes`: two diff checks (unstaged, then staged); a nonzero
exit on either runs `status` (quiet) and raises a bare `FlowError()`. -/
def noChanges : M Unit := do
  catchCPE (do let _ ← gitCap ["diff", "--exit-code"]; mPure ())
    (do gitRun ["status"]; raiseFlow none)
  catchCPE (do let _ ← gitCap ["diff", "--cached", "--exit-code"]; mPure ())
    (do gitRun ["status"]; raiseFlow none)

/-- Model of `GFlow._push`: push `{branch}:{branch}` to origin with the optional
flags appended in source order. -/
def pushBranch (branch : String) (no_verify set_upstream force : Bool) : M Unit := do
  let extra :=
    (if no_verify then ["--no-verify"] else [])
      ++ (if set_upstream then ["--set-upstream"] else [])
      ++ (if force then ["--force-with-lease"] else [])
  gitRun (["push", "origin", branch ++ ":" ++ branch] ++ extra)

/-- Model of `GFlow._publish`: fetch the branch from origin first; a
`CalledProcessError` there means no remote branch, so push sets the upstream
without forcing; a successful fetch means push with `--force-with-lease`. -/
def publishHelper (branch : String) (no_verify : Bool) : M Unit := do
  let remote_exists ← catchCPE (do gitRun ["fetch", "origin", branch]; mPure true) (mPure false)
  pushBranch branch no_verify (!remote_exists) remote_exists

/-- Model of `GFlow.do_current_branch`: print the current branch name. -/
def do_current_branch : M Unit := do
  let b ← currentBranch
  echoLn b

/-- Model of `GFlow.do_up`: fetch `+{on}:{on}` from origin, then rebase onto `on`
unless the branch being updated is `on` itself.  (The source has no
`--prune` flag and no interactive option.) -/
def do_up (onOpt branchOpt : Option String) : M Unit := do
  let branch ← argOrCurrent branchOpt
  let onb := orMain onOpt
  gitRun ["fetch", "origin", "+" ++ onb ++ ":" ++ onb]
  if branch ≠ onb then gitRun ["rebase", onb] else mPure ()

/-- Model of `GFlow.do_publish`: cleanliness check, refuse mainline, then safe
publish via `publishHelper`. -/
def do_publish (no_verify : Bool) (sourceOpt : Option String) : M Unit := do
  noChanges
  let source ← argOrCurrent sourceOpt
  if source = "main" ∨ source = "master" then
    raiseFlow (some "Refusing to publish main branch, use git push directly.")
  else
    publishHelper source no_verify

/-- Body of one iteration of the per-branch loop in `GFlow.do_unpublish`: skip mainline
with a printed warning (`continue`); otherwise check out main first when
deleting the current branch, delete the remote ref, then the local ref when
`rm` was requested. -/
def unpubStep (current : String) (rm : Bool) (branch : String) : M Unit := do
  if branch = "main" ∨ branch = "master" then
    echoLn "Refusing to delete main branch"
  else do
    if branch = current then gitRun ["checkout", "main"] else mPure ()
    gitRun ["push", "origin", "--delete", branch]
    if rm then gitRun ["branch", "-d", branch] else mPure ()

/-- The `for branch in branches` loop of `GFlow.do_unpublish`. -/
def unpubLoop (current : String) (rm : Bool) : List String → M Unit
  | [] => mPure ()
  | b :: rest => do
    unpubStep current rm b
    unpubLoop current rm rest

/-- Model of `GFlow.do_unpublish`: no cleanliness check; defaults to the current
branch when no branch arguments are given. -/
def do_unpublish (rm : Bool) (branchArgs : List String) : M Unit := do
  let current ← currentBranch
  let branches := if branchArgs.isEmpty then [current] else branchArgs
  unpubLoop current rm branches

/-- Python `\w` restricted to ASCII (the inputs considered here), plus the
`.` and `-` of the character class `[\w.-]` in `_ORIGIN_PATTERN`. -/
def isWordDot (c : Char) : Bool := c.isAlphanum || c = '_' || c = '.' || c = '-'

/-- The first character class `[\w.@-]` of `_ORIGIN_PATTERN`. -/
def isWordDotAt (c : Char) : Bool := isWordDot c || c = '@'

/-- Model of `re.match` of `_ORIGIN_PATTERN = [\w.@-]+:([\w.-]+)/([\w.-]+)(\.git)?`
returning `group(1, 2)` on success.

The backtracking regex is deterministic here, so maximal munch is exact:
each `+` class excludes the delimiter that follows it (`:` and `/` are in
neither class), so the run length before each delimiter is forced; the
pattern is unanchored at the end and `(\.git)?` can match empty, and since
`.` belongs to `[\w.-]` the greedy second capture always swallows any
`.git` suffix, leaving the optional group unmatched — hence no backtracking
ever occurs and group 2 keeps the `.git` suffix. -/
def originMatch (s : String) : Option (String × String) :=
  let cs := s.toList
  let a := cs.takeWhile isWordDotAt
  let rest1 := cs.dropWhile isWordDotAt
  if a.isEmpty then none else
  match rest1 with
  | ':' :: rest2 =>
    let b := rest2.takeWhile isWordDot
    let rest3 := rest2.dropWhile isWordDot
    if b.isEmpty then none else
    match rest3 with
    | '/' :: rest4 =>
      let c := rest4.takeWhile isWordDot
      if c.isEmpty then none else
      some (String.mk b, String.mk c)
    | _ => none
  | _ => none

/-- Model of `GFlow.do_pr`: cleanliness check, refuse mainline, parse the origin
remote URL (crashing if unparsable), publish, then print the PR URL.  The
`target` variable is computed in the source but never used; the
browser-opening `subprocess.run(["open", pr_url])` is an out-of-scope
collaborator, not a git call. -/
def do_pr (no_verify : Bool) (onOpt sourceOpt : Option String) : M Unit := do
  noChanges
  let source ← argOrCurrent sourceOpt
  let _target := orMain onOpt
  if source = "main" ∨ source = "master" then
    raiseFlow (some "Refusing to publish main branch.")
  else do
    let origin ← gitCap ["remote", "get-url", "origin"]
    match originMatch origin with
    | none => crashParse
    | some (org, repo) => do
      publishHelper source no_verify
      echoLn ("https://github.com/" ++ org ++ "/" ++ repo ++ "/pull/new/" ++ source)

/-- Model of `GFlow.do_land`: cleanliness check; `source` defaults to the current
branch (`pargs.source or self._current_branch()`), although the help text of the option says it defaults to `HEAD`; push `source:target` to origin, then
fetch `target:target` back into the local repository. -/
def do_land (no_verify : Bool) (onOpt sourceOpt : Option String) : M Unit := do
  noChanges
  let source ← argOrCurrent sourceOpt
  let target := orMain onOpt
  let extra := if no_verify then ["--no-verify"] else []
  gitRun (["push", "origin", source ++ ":" ++ target] ++ extra)
  gitRun ["fetch", "origin", target ++ ":" ++ target]

/-- Model of Python `name.replace("-", "_")` (single-character pattern, so a
per-character map). -/
def dashToUnderscore (s : String) : String :=
  String.mk (s.toList.map (fun c => if c = '-' then '_' else c))

/-- Model of `GFlow.method`: `"do_" + name.replace("-", "_")`, looked up among the
`do_*` attributes of the class. -/
def sanitize (name : String) : String := "do_" ++ dashToUnderscore name

/-- The fixed set of `do_*` handler attributes of class `GFlow`. -/
def registry : List String :=
  ["do_current_branch", "do_up", "do_publish", "do_unpublish", "do_pr", "do_land"]

/-- Whether `GFlow.method(name)` resolves to a handler. -/
def resolves (name : String) : Bool := registry.contains (sanitize name)

/-- Split a character list at a separator character. -/
def splitOnChar (sep : Char) : List Char → List (List Char)
  | [] => [[]]
  | c :: cs =>
    match splitOnChar sep cs with
    | [] => [[]]
    | g :: gs => if c = sep then [] :: g :: gs else (c :: g) :: gs

/-- Model of `Path(argv[0]).name`: the final nonempty path component (faithful
for the argv[0] shapes that reach this program: plain names, absolute and
relative slash-separated paths, with or without a trailing slash). -/
def pathName (p : String) : String :=
  match (((splitOnChar '/' p.toList).map String.mk).filter (fun s => s ≠ "")).getLast? with
  | some s => s
  | none => ""

/-- Outcome of the name resolution performed by the dispatcher in `main`. -/
inductive DispatchResult where
  | usage (line : String)
  | invoke (opName : String) (args : List String)
deriving DecidableEq, Repr

/-- The resolution logic of `main(argv)`: try the invocation name
(`Path(argv[0]).name`); if unresolved and an argument exists, try the first
argument, consuming it; otherwise the usage line. -/
def mainDispatch (prog : String) (rest : List String) : DispatchResult :=
  let bin := pathName prog
  if resolves bin then DispatchResult.invoke bin rest
  else
    match rest with
    | a :: rest2 =>
      if resolves a then DispatchResult.invoke a rest2
      else DispatchResult.usage ("Usage: " ++ bin ++ " action [opts...]")
    | [] => DispatchResult.usage ("Usage: " ++ bin ++ " action [opts...]")

/-- The direct usage-error path of the dispatcher: when no operation resolves,
`main` prints the usage line to standard output and exits with status 1,
without invoking any handler (so no git call is issued). -/
def mainUsageRun (prog : String) (rest : List String) : Option (List Ev × Nat) :=
  match mainDispatch prog rest with
  | DispatchResult.usage line => some ([Ev.echo line], 1)
  | DispatchResult.invoke _ _ => none

/-- The git invocations of a trace (print events dropped). -/
def gitEvents (tr : List Ev) : List (List String) :=
  tr.filterMap (fun e => match e with | Ev.git a => some a | Ev.echo _ => none)

/-- Generic flow-error test on a result. -/
def isFlowR : Except GErr α → Bool
  | Except.error (GErr.flow _ _) => true
  | _ => false

/-- Expected argument vector of the push made by the safe publish, per the fetch
outcome: `--set-upstream` (no force) when the fetch failed, otherwise
`--force-with-lease`; `--no-verify` first when requested. -/
def safePushArgs (env : Env) (source : String) (nv : Bool) : List String :=
  ["push", "origin", source ++ ":" ++ source]
    ++ (if nv then ["--no-verify"] else [])
    ++ (if env.gitOk ["fetch", "origin", source] then ["--force-with-lease"] else ["--set-upstream"])

/-- Trace left behind by a failed cleanliness check: the diff call(s) made
before the dirty one, plus the diagnostic `status` call. -/
def dirtyTrace (env : Env) : List Ev :=
  if env.gitOk ["diff", "--exit-code"] then
    [Ev.git ["diff", "--exit-code"], Ev.git ["diff", "--cached", "--exit-code"], Ev.git ["status"]]
  else
    [Ev.git ["diff", "--exit-code"], Ev.git ["status"]]

/-- The trace contains neither of the two cleanliness-check diff calls. -/
def NoDiffCheck (tr : List Ev) : Prop :=
  Ev.git ["diff", "--exit-code"] ∉ tr ∧ Ev.git ["diff", "--cached", "--exit-code"] ∉ tr

/-- The same repository oracle with the two cleanliness diffs forced clean;
an operation that performs no cleanliness check behaves identically under
`env` and `cleanDiffs env`. -/
def cleanDiffs (env : Env) : Env :=
  { env with gitOk := fun a =>
      if a = ["diff", "--exit-code"] ∨ a = ["diff", "--cached", "--exit-code"] then true
      else env.gitOk a }

/-- The program never appends a cleanliness diff call to the trace. -/
def PreservesNoDiff (x : M α) : Prop :=
  ∀ env tr, NoDiffCheck tr → NoDiffCheck ((x env tr).1)

/-- The program never raises a `FlowError`. -/
def NeverFlows (x : M α) : Prop :=
  ∀ env tr, isFlowR ((x env tr).2) = false

/-- The program behaves identically whether or not the tree is dirty. -/
def DiffAgnostic (x : M α) : Prop :=
  ∀ env tr, x (cleanDiffs env) tr = x env tr

def firstResolves : List String → Bool
  | [] => false
  | a :: _ => resolves a

def envClean : Env :=
  { gitOk := fun _ => true
    gitOut := fun args => if args = ["rev-parse", "--abbrev-ref", "HEAD"] then "feature-x\n" else ""
    gitCode := fun _ => 1 }

def envDirty : Env :=
  { envClean with gitOk := fun args => args != ["diff", "--exit-code"] }

def envLandPushFails : Env :=
  { envClean with gitOk := fun args => args != ["push", "origin", "feature-x:main"] }

def envDeleteFails : Env :=
  { envClean with gitOk := fun args => args != ["push", "origin", "--delete", "dead"] }

def envBadOrigin : Env :=
  { envClean with gitOut := fun args =>
      if args = ["remote", "get-url", "origin"] then "not a parsable url" else envClean.gitOut args }

/-- Unfolding lemma for the bind of the monad on this concrete state-passing type. -/
theorem run_bind (x : M α) (f : α → M β) (env : Env) (tr : List Ev) :
    (x >>= f) env tr =
      match x env tr with
      | (tr2, Except.ok a) => f a env tr2
      | (tr2, Except.error e) => (tr2, Except.error e) := rfl

theorem run_pure (a : α) (env : Env) (tr : List Ev) :
    (pure a : M α) env tr = (tr, Except.ok a) := rfl

theorem cleanDiffs_gitOk (env : Env) (a : List String)
    (h1 : a ≠ ["diff", "--exit-code"]) (h2 : a ≠ ["diff", "--cached", "--exit-code"]) :
    (cleanDiffs env).gitOk a = env.gitOk a := by
  simp [cleanDiffs, h1, h2]

theorem unpubStep_no_diff (current : String) (rm : Bool) (b : String) (env : Env) (tr : List Ev)
    (h : NoDiffCheck tr) : NoDiffCheck (unpubStep current rm b env tr).1 := by
  unfold unpubStep
  by_cases h1 : b = "main" ∨ b = "master" <;>
  by_cases h2 : b = current <;>
  cases hc : env.gitOk ["checkout", "main"] <;>
  cases hp : env.gitOk ["push", "origin", "--delete", b] <;>
  cases rm <;>
  cases hl : env.gitOk ["branch", "-d", b] <;>
  simp_all [NoDiffCheck, echoLn, gitRun, mPure, mBind, Bind.bind, monadM]

theorem unpubStep_not_flow (current : String) (rm : Bool) (b : String) (env : Env) (tr : List Ev) :
    isFlowR (unpubStep current rm b env tr).2 = false := by
  unfold unpubStep
  by_cases h1 : b = "main" ∨ b = "master" <;>
  by_cases h2 : b = current <;>
  cases hc : env.gitOk ["checkout", "main"] <;>
  cases hp : env.gitOk ["push", "origin", "--delete", b] <;>
  cases rm <;>
  cases hl : env.gitOk ["branch", "-d", b] <;>
  simp_all [isFlowR, echoLn, gitRun, mPure, mBind, Bind.bind, monadM]

theorem unpubStep_cleanDiffs (current : String) (rm : Bool) (b : String) (env : Env)
    (tr : List Ev) : unpubStep current rm b (cleanDiffs env) tr = unpubStep current rm b env tr := by
  unfold unpubStep
  by_cases h1 : b = "main" ∨ b = "master" <;>
  by_cases h2 : b = current <;>
  cases rm <;>
  cases hc : env.gitOk ["checkout", "main"] <;>
  cases hp : env.gitOk ["push", "origin", "--delete", b] <;>
  cases hl : env.gitOk ["branch", "-d", b] <;>
  simp_all [echoLn, gitRun, mPure, mBind, Bind.bind, monadM, cleanDiffs]

theorem unpubLoop_no_diff (current : String) (rm : Bool) (bs : List String) (env : Env)
    (tr : List Ev) (h : NoDiffCheck tr) : NoDiffCheck (unpubLoop current rm bs env tr).1 := by
  induction bs generalizing tr with
  | nil => simpa [unpubLoop, mPure]
  | cons b rest ih =>
    have hs := unpubStep_no_diff current rm b env tr h
    rcases hres : unpubStep current rm b env tr with ⟨tr2, r⟩
    rw [hres] at hs
    cases r with
    | ok a => simp only [unpubLoop, run_bind, hres]; exact ih tr2 hs
    | error e => simp only [unpubLoop, run_bind, hres]; exact hs

theorem unpubLoop_not_flow (current : String) (rm : Bool) (bs : List String) (env : Env)
    (tr : List Ev) : isFlowR (unpubLoop current rm bs env tr).2 = false := by
  induction bs generalizing tr with
  | nil => simp [unpubLoop, mPure, isFlowR]
  | cons b rest ih =>
    have hs := unpubStep_not_flow current rm b env tr
    rcases hres : unpubStep current rm b env tr with ⟨tr2, r⟩
    rw [hres] at hs
    cases r with
    | ok a => simp only [unpubLoop, run_bind, hres]; exact ih tr2
    | error e => simp only [unpubLoop, run_bind, hres]; exact hs

theorem unpubLoop_cleanDiffs (current : String) (rm : Bool) (bs : List String) (env : Env)
    (tr : List Ev) :
    unpubLoop current rm bs (cleanDiffs env) tr = unpubLoop current rm bs env tr := by
  induction bs generalizing tr with
  | nil => rfl
  | cons b rest ih =>
    simp only [unpubLoop, run_bind, unpubStep_cleanDiffs]
    rcases hres : unpubStep current rm b env tr with ⟨tr2, r⟩
    cases r with
    | ok a => exact ih tr2
    | error e => rfl

theorem preserves_bind {x : M α} {f : α → M β} (hx : PreservesNoDiff x)
    (hf : ∀ a, PreservesNoDiff (f a)) : PreservesNoDiff (x >>= f) := by
  intro env tr h
  rcases hres : x env tr with ⟨tr2, r⟩
  have h2 : NoDiffCheck tr2 := by have := hx env tr h; rwa [hres] at this
  cases r with
  | ok a => simp only [run_bind, hres]; exact hf a env tr2 h2
  | error e => simp only [run_bind, hres]; exact h2

theorem neverFlows_bind {x : M α} {f : α → M β} (hx : NeverFlows x)
    (hf : ∀ a, NeverFlows (f a)) : NeverFlows (x >>= f) := by
  intro env tr
  rcases hres : x env tr with ⟨tr2, r⟩
  cases r with
  | ok a => simp only [run_bind, hres]; exact hf a env tr2
  | error e =>
    simp only [run_bind, hres]
    have := hx env tr
    rw [hres] at this
    cases e <;> simp_all [isFlowR]

theorem agnostic_bind {x : M α} {f : α → M β} (hx : DiffAgnostic x)
    (hf : ∀ a, DiffAgnostic (f a)) : DiffAgnostic (x >>= f) := by
  intro env tr
  simp only [run_bind, hx env tr]
  rcases hres : x env tr with ⟨tr2, r⟩
  cases r with
  | ok a => exact hf a env tr2
  | error e => rfl

theorem preserves_gitRun {args : List String}
    (h1 : args ≠ ["diff", "--exit-code"]) (h2 : args ≠ ["diff", "--cached", "--exit-code"]) :
    PreservesNoDiff (gitRun args) := by
  intro env tr h
  simp_all [gitRun, NoDiffCheck, Ne.symm h1, Ne.symm h2]

theorem preserves_gitCap {args : List String}
    (h1 : args ≠ ["diff", "--exit-code"]) (h2 : args ≠ ["diff", "--cached", "--exit-code"]) :
    PreservesNoDiff (gitCap args) := by
  intro env tr h
  simp_all [gitCap, NoDiffCheck, Ne.symm h1, Ne.symm h2]

theorem preserves_echoLn (line : String) : PreservesNoDiff (echoLn line) := by
  intro env tr h
  simp_all [echoLn, NoDiffCheck]

theorem preserves_mPure (a : α) : PreservesNoDiff (mPure a) := by
  intro env tr h
  simpa [mPure]

theorem neverFlows_gitRun (args : List String) : NeverFlows (gitRun args) := by
  intro env tr
  cases h : env.gitOk args <;> simp [gitRun, isFlowR, h]

theorem neverFlows_gitCap (args : List String) : NeverFlows (gitCap args) := by
  intro env tr
  cases h : env.gitOk args <;> simp [gitCap, isFlowR, h]

theorem neverFlows_echoLn (line : String) : NeverFlows (echoLn line) := by
  intro env tr
  simp [echoLn, isFlowR]

theorem neverFlows_mPure (a : α) : NeverFlows (mPure a) := by
  intro env tr
  simp [mPure, isFlowR]

theorem agnostic_gitRun {args : List String}
    (h1 : args ≠ ["diff", "--exit-code"]) (h2 : args ≠ ["diff", "--cached", "--exit-code"]) :
    DiffAgnostic (gitRun args) := by
  intro env tr
  simp [gitRun, cleanDiffs, h1, h2]

theorem agnostic_gitCap {args : List String}
    (h1 : args ≠ ["diff", "--exit-code"]) (h2 : args ≠ ["diff", "--cached", "--exit-code"]) :
    DiffAgnostic (gitCap args) := by
  intro env tr
  simp [gitCap, cleanDiffs, h1, h2]

theorem agnostic_echoLn (line : String) : DiffAgnostic (echoLn line) := by
  intro env tr
  rfl

theorem agnostic_mPure (a : α) : DiffAgnostic (mPure a) := by
  intro env tr
  rfl

theorem preserves_currentBranch : PreservesNoDiff currentBranch := by
  unfold currentBranch
  exact preserves_bind (preserves_gitCap (by simp) (by simp)) (fun a => preserves_mPure _)

theorem neverFlows_currentBranch : NeverFlows currentBranch := by
  unfold currentBranch
  exact neverFlows_bind (neverFlows_gitCap _) (fun a => neverFlows_mPure _)

theorem agnostic_currentBranch : DiffAgnostic currentBranch := by
  unfold currentBranch
  exact agnostic_bind (agnostic_gitCap (by simp) (by simp)) (fun a => agnostic_mPure _)

theorem preserves_argOrCurrent (s : Option String) : PreservesNoDiff (argOrCurrent s) := by
  rcases s with _ | v
  · exact preserves_currentBranch
  · by_cases hv : v = "" <;> simp only [argOrCurrent, hv, if_true, if_false]
    · exact preserves_currentBranch
    · exact preserves_mPure _

theorem neverFlows_argOrCurrent (s : Option String) : NeverFlows (argOrCurrent s) := by
  rcases s with _ | v
  · exact neverFlows_currentBranch
  · by_cases hv : v = "" <;> simp only [argOrCurrent, hv, if_true, if_false]
    · exact neverFlows_currentBranch
    · exact neverFlows_mPure _

theorem agnostic_argOrCurrent (s : Option String) : DiffAgnostic (argOrCurrent s) := by
  rcases s with _ | v
  · exact agnostic_currentBranch
  · by_cases hv : v = "" <;> simp only [argOrCurrent, hv, if_true, if_false]
    · exact agnostic_currentBranch
    · exact agnostic_mPure _

theorem preserves_do_up (oOpt bOpt : Option String) : PreservesNoDiff (do_up oOpt bOpt) := by
  simp only [do_up]
  apply preserves_bind (preserves_argOrCurrent _)
  intro branch
  apply preserves_bind (preserves_gitRun (by simp) (by simp))
  intro _
  split
  · exact preserves_gitRun (by simp) (by simp)
  · exact preserves_mPure _

theorem neverFlows_do_up (oOpt bOpt : Option String) : NeverFlows (do_up oOpt bOpt) := by
  simp only [do_up]
  apply neverFlows_bind (neverFlows_argOrCurrent _)
  intro branch
  apply neverFlows_bind (neverFlows_gitRun _)
  intro _
  split
  · exact neverFlows_gitRun _
  · exact neverFlows_mPure _

theorem agnostic_do_up (oOpt bOpt : Option String) : DiffAgnostic (do_up oOpt bOpt) := by
  simp only [do_up]
  apply agnostic_bind (agnostic_argOrCurrent _)
  intro branch
  apply agnostic_bind (agnostic_gitRun (by simp) (by simp))
  intro _
  split
  · exact agnostic_gitRun (by simp) (by simp)
  · exact agnostic_mPure _

theorem preserves_do_unpublish (rm : Bool) (bs : List String) :
    PreservesNoDiff (do_unpublish rm bs) := by
  simp only [do_unpublish]
  apply preserves_bind preserves_currentBranch
  intro current
  exact fun env tr h => unpubLoop_no_diff current rm _ env tr h

theorem neverFlows_do_unpublish (rm : Bool) (bs : List String) :
    NeverFlows (do_unpublish rm bs) := by
  simp only [do_unpublish]
  apply neverFlows_bind neverFlows_currentBranch
  intro current
  exact fun env tr => unpubLoop_not_flow current rm _ env tr

theorem agnostic_do_unpublish (rm : Bool) (bs : List String) :
    DiffAgnostic (do_unpublish rm bs) := by
  simp only [do_unpublish]
  apply agnostic_bind agnostic_currentBranch
  intro current
  exact fun env tr => unpubLoop_cleanDiffs current rm _ env tr

theorem noChanges_dirty (env : Env)
    (hstatus : env.gitOk ["status"] = true)
    (hdirty : env.gitOk ["diff", "--exit-code"] = false
      ∨ env.gitOk ["diff", "--cached", "--exit-code"] = false) :
    noChanges env [] = (dirtyTrace env, Except.error (GErr.flow none 1)) := by
  rcases hdirty with h | h
  · simp [noChanges, catchCPE, gitCap, gitRun, raiseFlow, mPure, mBind, Bind.bind, monadM,
      h, hstatus, dirtyTrace]
  · cases hd1 : env.gitOk ["diff", "--exit-code"] <;>
      simp_all [noChanges, catchCPE, gitCap, gitRun, raiseFlow, mPure, mBind, Bind.bind, monadM,
        dirtyTrace]

/-- C1: for every branch name `source` (in particular every non-mainline one), `_publish` first runs `fetch origin <source>`; when that fetch raises a Gateway Failure the subsequent push of `<source>:<source>` to origin carries `--set-upstream` and no force flag, and when it succeeds the push carries `--force-with-lease`; `--no-verify` is appended exactly when requested. -/
theorem publish_safe_push (env : Env) (source : String) (nv : Bool) (tr : List Ev) :
    publishHelper source nv env tr =
      (tr ++ [Ev.git ["fetch", "origin", source], Ev.git (safePushArgs env source nv)],
       if env.gitOk (safePushArgs env source nv) then Except.ok ()
       else Except.error (GErr.calledProcess (safePushArgs env source nv)
         (env.gitCode (safePushArgs env source nv)))) := by
  cases hf : env.gitOk ["fetch", "origin", source] <;>
    cases hp : env.gitOk (safePushArgs env source nv) <;>
      simp [publishHelper, pushBranch, catchCPE, gitRun, mPure, mBind, safePushArgs, hf, hp,
        Bind.bind, monadM] <;> simp_all [safePushArgs, hf]

/-- C2: when the push by land of `<source>:<target>` to origin raises a Gateway Failure, the local-sync fetch of `<target>:<target>` is never executed (the trace ends at the push) and the Gateway Failure propagates to the dispatcher unmodified. -/
theorem land_push_failure_aborts_sync (env : Env) (nv : Bool) (src tgt : String)
    (hsrc : src ≠ "") (htgt : tgt ≠ "")
    (hd1 : env.gitOk ["diff", "--exit-code"] = true)
    (hd2 : env.gitOk ["diff", "--cached", "--exit-code"] = true)
    (hpush : env.gitOk (["push", "origin", src ++ ":" ++ tgt]
      ++ (if nv then ["--no-verify"] else [])) = false) :
    do_land nv (some tgt) (some src) env [] =
      ([Ev.git ["diff", "--exit-code"], Ev.git ["diff", "--cached", "--exit-code"],
        Ev.git (["push", "origin", src ++ ":" ++ tgt] ++ (if nv then ["--no-verify"] else []))],
       Except.error (GErr.calledProcess
         (["push", "origin", src ++ ":" ++ tgt] ++ (if nv then ["--no-verify"] else []))
         (env.gitCode (["push", "origin", src ++ ":" ++ tgt]
           ++ (if nv then ["--no-verify"] else []))))) := by
  cases nv <;>
    simp_all [do_land, noChanges, argOrCurrent, orMain, catchCPE, gitCap, gitRun, mPure, mBind,
      raiseFlow, Bind.bind, monadM]

/-- Witness for C2 at a concrete repository oracle whose land push fails. -/
theorem land_push_failure_aborts_sync_witness :
    (("feature-x" : String) ≠ "" ∧ ("main" : String) ≠ ""
      ∧ envLandPushFails.gitOk ["diff", "--exit-code"] = true
      ∧ envLandPushFails.gitOk ["diff", "--cached", "--exit-code"] = true
      ∧ envLandPushFails.gitOk (["push", "origin", "feature-x" ++ ":" ++ "main"]
          ++ (if false then ["--no-verify"] else [])) = false)
    ∧ do_land false (some "main") (some "feature-x") envLandPushFails [] =
        ([Ev.git ["diff", "--exit-code"], Ev.git ["diff", "--cached", "--exit-code"],
          Ev.git (["push", "origin", "feature-x" ++ ":" ++ "main"]
            ++ (if false then ["--no-verify"] else []))],
         Except.error (GErr.calledProcess
           (["push", "origin", "feature-x" ++ ":" ++ "main"]
             ++ (if false then ["--no-verify"] else []))
           (envLandPushFails.gitCode (["push", "origin", "feature-x" ++ ":" ++ "main"]
             ++ (if false then ["--no-verify"] else []))))) :=
  ⟨⟨by decide, by decide, by decide, by decide, by decide⟩,
   land_push_failure_aborts_sync envLandPushFails false "feature-x" "main"
     (by decide) (by decide) (by decide) (by decide) (by decide)⟩

/-- C3, evaluated at the failing input: `land()` with no source argument while the current branch is `feature-x` pushes `feature-x:main`, not `HEAD:main` — the source defaults to the current branch name (`pargs.source or self._current_branch()`), contradicting the claim and the help text of the option itself (`defaults to HEAD`). -/
theorem land_pushes_current_branch_not_head :
    do_land false none none envClean [] =
      ([Ev.git ["diff", "--exit-code"], Ev.git ["diff", "--cached", "--exit-code"],
        Ev.git ["rev-parse", "--abbrev-ref", "HEAD"],
        Ev.git ["push", "origin", "feature-x:main"],
        Ev.git ["fetch", "origin", "main:main"]],
       Except.ok ())
    ∧ Ev.git ["push", "origin", "HEAD:main"] ∉ (do_land false none none envClean []).1 := by
  constructor
  · rfl
  · decide

/-- C4: with pending changes (a failing unstaged diff or a failing staged diff — either suffices), publish, pr and land raise a messageless Workflow Failure with status 1 and their trace is exactly the diagnostic diff/status calls — no push or fetch; up and unpublish perform no cleanliness check: they issue no diff call, never raise a Workflow Failure, and behave identically when the diffs are forced clean. -/
theorem dirty_tree_guard (env : Env) (nv rm : Bool) (sOpt oOpt bOpt : Option String)
    (bs : List String)
    (hstatus : env.gitOk ["status"] = true)
    (hdirty : env.gitOk ["diff", "--exit-code"] = false
      ∨ env.gitOk ["diff", "--cached", "--exit-code"] = false) :
    do_publish nv sOpt env [] = (dirtyTrace env, Except.error (GErr.flow none 1))
    ∧ do_pr nv oOpt sOpt env [] = (dirtyTrace env, Except.error (GErr.flow none 1))
    ∧ do_land nv oOpt sOpt env [] = (dirtyTrace env, Except.error (GErr.flow none 1))
    ∧ (∀ a ∈ gitEvents (dirtyTrace env), a.headD "" ≠ "push" ∧ a.headD "" ≠ "fetch")
    ∧ NoDiffCheck (do_up oOpt bOpt env []).1
    ∧ isFlowR (do_up oOpt bOpt env []).2 = false
    ∧ do_up oOpt bOpt (cleanDiffs env) [] = do_up oOpt bOpt env []
    ∧ NoDiffCheck (do_unpublish rm bs env []).1
    ∧ isFlowR (do_unpublish rm bs env []).2 = false
    ∧ do_unpublish rm bs (cleanDiffs env) [] = do_unpublish rm bs env [] := by
  have hnc := noChanges_dirty env hstatus hdirty
  refine ⟨?_, ?_, ?_, ?_, ?_, ?_, ?_, ?_, ?_, ?_⟩
  · simp only [do_publish, run_bind, hnc]
  · simp only [do_pr, run_bind, hnc]
  · simp only [do_land, run_bind, hnc]
  · cases hd : env.gitOk ["diff", "--exit-code"] <;> simp [dirtyTrace, gitEvents, hd]
  · exact preserves_do_up oOpt bOpt env [] ⟨by simp [NoDiffCheck], by simp [NoDiffCheck]⟩
  · exact neverFlows_do_up oOpt bOpt env []
  · exact agnostic_do_up oOpt bOpt env []
  · exact preserves_do_unpublish rm bs env [] ⟨by simp [NoDiffCheck], by simp [NoDiffCheck]⟩
  · exact neverFlows_do_unpublish rm bs env []
  · exact agnostic_do_unpublish rm bs env []

/-- Witness for C4 at a concrete dirty repository oracle. -/
theorem dirty_tree_guard_witness :
    (envDirty.gitOk ["status"] = true
      ∧ (envDirty.gitOk ["diff", "--exit-code"] = false
          ∨ envDirty.gitOk ["diff", "--cached", "--exit-code"] = false))
    ∧ (do_publish false (some "topic") envDirty []
          = (dirtyTrace envDirty, Except.error (GErr.flow none 1))
      ∧ do_pr false none (some "topic") envDirty []
          = (dirtyTrace envDirty, Except.error (GErr.flow none 1))
      ∧ do_land false none (some "topic") envDirty []
          = (dirtyTrace envDirty, Except.error (GErr.flow none 1))
      ∧ (∀ a ∈ gitEvents (dirtyTrace envDirty), a.headD "" ≠ "push" ∧ a.headD "" ≠ "fetch")
      ∧ NoDiffCheck (do_up none none envDirty []).1
      ∧ isFlowR (do_up none none envDirty []).2 = false
      ∧ do_up none none (cleanDiffs envDirty) [] = do_up none none envDirty []
      ∧ NoDiffCheck (do_unpublish false ["dead"] envDirty []).1
      ∧ isFlowR (do_unpublish false ["dead"] envDirty []).2 = false
      ∧ do_unpublish false ["dead"] (cleanDiffs envDirty) []
          = do_unpublish false ["dead"] envDirty []) :=
  ⟨⟨by decide, by decide⟩,
   dirty_tree_guard envDirty false false (some "topic") none none ["dead"]
     (by decide) (by decide)⟩

/-- C5 counterexample: `publish("main")` on a clean tree raises the refusing-to-publish Workflow Failure but does issue Gateway calls — the two diff calls of the cleanliness check — so the claimed "zero Gateway calls" is false as stated. -/
theorem publish_main_issues_gateway_calls :
    gitEvents (do_publish false (some "main") envClean []).1 ≠ []
    ∧ (do_publish false (some "main") envClean []).2 =
        Except.error (GErr.flow (some "Refusing to publish main branch, use git push directly.") 1) := by
  constructor
  · decide
  · rfl

/-- C5 (amended): on a clean tree, `publish("main")` or `publish("master")` raises a Workflow Failure with the refusing-to-publish message and status 1, and its only Gateway calls are the two diagnostic diff calls of the cleanliness check — no push or fetch is issued. -/
theorem publish_mainline_refusal (env : Env) (nv : Bool) (s : String)
    (hs : s = "main" ∨ s = "master")
    (hd1 : env.gitOk ["diff", "--exit-code"] = true)
    (hd2 : env.gitOk ["diff", "--cached", "--exit-code"] = true) :
    do_publish nv (some s) env [] =
      ([Ev.git ["diff", "--exit-code"], Ev.git ["diff", "--cached", "--exit-code"]],
       Except.error (GErr.flow
         (some "Refusing to publish main branch, use git push directly.") 1)) := by
  have hne : s ≠ "" := by rcases hs with h | h <;> simp [h]
  simp_all [do_publish, noChanges, argOrCurrent, catchCPE, gitCap, gitRun, mPure, mBind,
    raiseFlow, Bind.bind, monadM]

/-- Witness for the amended C5 theorem at a concrete clean repository oracle. -/
theorem publish_mainline_refusal_witness :
    ((("master" : String) = "main" ∨ ("master" : String) = "master")
      ∧ envClean.gitOk ["diff", "--exit-code"] = true
      ∧ envClean.gitOk ["diff", "--cached", "--exit-code"] = true)
    ∧ do_publish true (some "master") envClean [] =
        ([Ev.git ["diff", "--exit-code"], Ev.git ["diff", "--cached", "--exit-code"]],
         Except.error (GErr.flow
           (some "Refusing to publish main branch, use git push directly.") 1)) :=
  ⟨⟨by decide, by decide, by decide⟩,
   publish_mainline_refusal envClean true "master" (by decide) (by decide) (by decide)⟩

/-- C6: in the unpublish loop a mainline name is skipped with a printed warning and the loop continues with the remaining names; for a non-mainline branch, a `checkout main` precedes the remote delete exactly when the branch is the current branch, the remote delete precedes the local delete, and the local delete is issued exactly when `rm` was requested. -/
theorem unpublish_per_branch (env : Env) (current b : String) (rm : Bool)
    (rest : List String) (tr : List Ev)
    (hb1 : b ≠ "main") (hb2 : b ≠ "master")
    (hc : env.gitOk ["checkout", "main"] = true)
    (hp : env.gitOk ["push", "origin", "--delete", b] = true)
    (hl : env.gitOk ["branch", "-d", b] = true) :
    unpubLoop current rm ("main" :: rest) env tr
        = unpubLoop current rm rest env (tr ++ [Ev.echo "Refusing to delete main branch"])
    ∧ unpubLoop current rm ("master" :: rest) env tr
        = unpubLoop current rm rest env (tr ++ [Ev.echo "Refusing to delete main branch"])
    ∧ unpubStep current rm b env tr =
        (tr ++ (if b = current then [Ev.git ["checkout", "main"]] else [])
            ++ [Ev.git ["push", "origin", "--delete", b]]
            ++ (if rm then [Ev.git ["branch", "-d", b]] else []),
         Except.ok ()) := by
  refine ⟨?_, ?_, ?_⟩
  · simp [unpubLoop, unpubStep, echoLn, run_bind, mPure, mBind, Bind.bind, monadM]
  · simp [unpubLoop, unpubStep, echoLn, run_bind, mPure, mBind, Bind.bind, monadM]
  · by_cases hbc : b = current <;> cases rm <;>
      simp_all [unpubStep, gitRun, echoLn, mPure, mBind, Bind.bind, monadM]

/-- Witness for C6 at concrete branches and a clean repository oracle. -/
theorem unpublish_per_branch_witness :
    (("dead" : String) ≠ "main" ∧ ("dead" : String) ≠ "master"
      ∧ envClean.gitOk ["checkout", "main"] = true
      ∧ envClean.gitOk ["push", "origin", "--delete", "dead"] = true
      ∧ envClean.gitOk ["branch", "-d", "dead"] = true)
    ∧ (unpubLoop "feature-x" true ("main" :: ["x"]) envClean []
          = unpubLoop "feature-x" true ["x"] envClean
              ([] ++ [Ev.echo "Refusing to delete main branch"])
      ∧ unpubLoop "feature-x" true ("master" :: ["x"]) envClean []
          = unpubLoop "feature-x" true ["x"] envClean
              ([] ++ [Ev.echo "Refusing to delete main branch"])
      ∧ unpubStep "feature-x" true "dead" envClean [] =
          ([] ++ (if ("dead" : String) = "feature-x" then [Ev.git ["checkout", "main"]] else [])
              ++ [Ev.git ["push", "origin", "--delete", "dead"]]
              ++ (if true then [Ev.git ["branch", "-d", "dead"]] else []),
           Except.ok ())) :=
  ⟨⟨by decide, by decide, by decide, by decide, by decide⟩,
   unpublish_per_branch envClean "feature-x" "dead" true ["x"] []
     (by decide) (by decide) (by decide) (by decide) (by decide)⟩

/-- C7: when neither the invocation name of the program nor (when supplied) the first argument resolves to a registered operation, the dispatcher prints a usage line referencing the invocation name and exits with status 1, issuing no git call. -/
theorem dispatch_unresolved_usage (prog : String) (rest : List String)
    (h1 : resolves (pathName prog) = false)
    (h2 : firstResolves rest = false) :
    mainUsageRun prog rest =
      some ([Ev.echo ("Usage: " ++ pathName prog ++ " action [opts...]")], 1)
    ∧ gitEvents [Ev.echo ("Usage: " ++ pathName prog ++ " action [opts...]")] = [] := by
  constructor
  · cases rest with
    | nil => simp [mainUsageRun, mainDispatch, h1]
    | cons a rest2 => simp_all [mainUsageRun, mainDispatch, firstResolves, h1]
  · simp [gitEvents]

/-- Witness for C7 at a concrete unresolvable invocation. -/
theorem dispatch_unresolved_usage_witness :
    (resolves (pathName "/usr/local/bin/gflow") = false
      ∧ firstResolves ["bogus", "x"] = false)
    ∧ (mainUsageRun "/usr/local/bin/gflow" ["bogus", "x"] =
        some ([Ev.echo ("Usage: " ++ pathName "/usr/local/bin/gflow" ++ " action [opts...]")], 1)
      ∧ gitEvents [Ev.echo ("Usage: " ++ pathName "/usr/local/bin/gflow" ++ " action [opts...]")]
          = []) :=
  ⟨⟨by decide, by decide⟩,
   dispatch_unresolved_usage "/usr/local/bin/gflow" ["bogus", "x"] (by decide) (by decide)⟩

/-- C8, evaluated at the failing input: parsing `git@github.com:orgname/reponame.git` yields repository `reponame.git`, not the claimed `reponame` — the greedy `[\w.-]+` capture swallows the suffix the optional `(\.git)?` group was meant to strip; the same URL without `.git` yields `reponame`, a malformed URL fails to parse, and that parse failure crashes `pr`. -/
theorem origin_pattern_keeps_git_suffix :
    originMatch "git@github.com:orgname/reponame.git" = some ("orgname", "reponame.git")
    ∧ originMatch "git@github.com:orgname/reponame" = some ("orgname", "reponame")
    ∧ originMatch "garbage" = none
    ∧ (do_pr false none none envBadOrigin []).2 = Except.error GErr.parseCrash := by
  exact ⟨rfl, rfl, rfl, rfl⟩

/-- C9 counterexample: `up` on branch `feature` with target `main` fetches `+main:main` with no `--prune` flag anywhere in the trace, contrary to the fetch call `fetch origin +main:main --prune` of the claim. -/
theorem up_fetch_has_no_prune :
    (do_up (some "main") (some "feature") envClean []).1
      = [Ev.git ["fetch", "origin", "+main:main"], Ev.git ["rebase", "main"]]
    ∧ Ev.git ["fetch", "origin", "+main:main", "--prune"]
       ∉ (do_up (some "main") (some "feature") envClean []).1 := by
  constructor
  · rfl
  · decide

/-- C9 (amended): `up` runs `fetch origin +<on>:<on>` (without `--prune`) and then runs `rebase <on>` exactly when the branch being updated differs from `<on>`; when they are equal no rebase is issued. -/
theorem up_fetch_then_conditional_rebase (env : Env) (br onName : String)
    (hbr : br ≠ "") (hon : onName ≠ "")
    (hf : env.gitOk ["fetch", "origin", "+" ++ onName ++ ":" ++ onName] = true) :
    do_up (some onName) (some br) env [] =
      ([Ev.git ["fetch", "origin", "+" ++ onName ++ ":" ++ onName]]
         ++ (if br = onName then [] else [Ev.git ["rebase", onName]]),
       if br = onName then Except.ok ()
       else if env.gitOk ["rebase", onName] then Except.ok ()
       else Except.error (GErr.calledProcess ["rebase", onName]
         (env.gitCode ["rebase", onName]))) := by
  by_cases hbo : br = onName <;>
    cases hr : env.gitOk ["rebase", onName] <;>
      simp_all [do_up, argOrCurrent, orMain, gitRun, mPure, mBind, Bind.bind, monadM]

/-- Witness for the amended C9 theorem at concrete branches. -/
theorem up_fetch_then_conditional_rebase_witness :
    (("feature" : String) ≠ "" ∧ ("main" : String) ≠ ""
      ∧ envClean.gitOk ["fetch", "origin", "+" ++ "main" ++ ":" ++ "main"] = true)
    ∧ do_up (some "main") (some "feature") envClean [] =
        ([Ev.git ["fetch", "origin", "+" ++ "main" ++ ":" ++ "main"]]
           ++ (if ("feature" : String) = "main" then [] else [Ev.git ["rebase", "main"]]),
         if ("feature" : String) = "main" then Except.ok ()
         else if envClean.gitOk ["rebase", "main"] then Except.ok ()
         else Except.error (GErr.calledProcess ["rebase", "main"]
           (envClean.gitCode ["rebase", "main"]))) :=
  ⟨⟨by decide, by decide, by decide⟩,
   up_fetch_then_conditional_rebase envClean "feature" "main" (by decide) (by decide) (by decide)⟩

/-- C10: a failing remote delete for a non-mainline branch aborts the whole unpublish batch — the Gateway Failure propagates and the trace contains nothing for the remaining branches. -/
theorem unpublish_gateway_failure_aborts_batch (env : Env) (current b : String)
    (rm : Bool) (rest : List String)
    (hb1 : b ≠ "main") (hb2 : b ≠ "master") (hbc : b ≠ current)
    (hp : env.gitOk ["push", "origin", "--delete", b] = false) :
    unpubLoop current rm (b :: rest) env [] =
      ([Ev.git ["push", "origin", "--delete", b]],
       Except.error (GErr.calledProcess ["push", "origin", "--delete", b]
         (env.gitCode ["push", "origin", "--delete", b]))) := by
  simp [unpubLoop, unpubStep, run_bind, gitRun, mPure, mBind, Bind.bind, monadM, hb1, hb2, hbc, hp]

/-- Witness for C10 at a concrete oracle whose remote delete fails. -/
theorem unpublish_gateway_failure_aborts_batch_witness :
    (("dead" : String) ≠ "main" ∧ ("dead" : String) ≠ "master"
      ∧ ("dead" : String) ≠ "feature-x"
      ∧ envDeleteFails.gitOk ["push", "origin", "--delete", "dead"] = false)
    ∧ unpubLoop "feature-x" true ("dead" :: ["other"]) envDeleteFails [] =
        ([Ev.git ["push", "origin", "--delete", "dead"]],
         Except.error (GErr.calledProcess ["push", "origin", "--delete", "dead"]
           (envDeleteFails.gitCode ["push", "origin", "--delete", "dead"]))) :=
  ⟨⟨by decide, by decide, by decide, by decide⟩,
   unpublish_gateway_failure_aborts_batch envDeleteFails "feature-x" "dead" true ["other"]
     (by decide) (by decide) (by decide) (by decide)⟩

end GFlows
